import Mathlib

/-!
Shallow embedding of the SMART Bank Reconciliation matching engine
(`reconcileTransactions` and its sample fixtures).  Monetary amounts are
modelled as exact rationals, calendar dates as the `YYYY-MM-DD` strings the
program stores, and the JavaScript `new Date(s).getTime()` millisecond clock
as a whole-day count (`Option Int`, `none` modelling an invalid date / NaN).
-/

namespace BankRec

inductive TransactionType where
  | DEBIT
  | CREDIT
deriving DecidableEq, Repr

inductive TxSource where
  | BANK
  | LEDGER
deriving DecidableEq, Repr

/-- `Transaction` record (types.ts). -/
structure Transaction where
  id : String
  date : String
  description : String
  amount : ℚ
  reference : Option String := none
  type : TransactionType
  source : TxSource
deriving DecidableEq, Repr

/-- `MatchedTransaction` record (types.ts). -/
structure MatchedTransaction where
  bankParams : Transaction
  ledgerParams : Transaction
  confidence : ℚ
  notes : Option String := none
deriving DecidableEq, Repr

/-- The inline `summary` object of `ReconciliationReport` (types.ts). -/
structure ReconciliationSummary where
  totalMatchedAmount : ℚ
  totalUnmatchedBankAmount : ℚ
  totalUnmatchedLedgerAmount : ℚ
  matchCount : Nat
  discrepancyCount : Nat
deriving DecidableEq, Repr

/-- `ReconciliationReport` record (types.ts). -/
structure ReconciliationReport where
  «matches» : List MatchedTransaction
  unmatchedBank : List Transaction
  unmatchedLedger : List Transaction
  summary : ReconciliationSummary
deriving DecidableEq, Repr

/-- Keeps exactly the characters the regex `[^a-z0-9]` would let survive. -/
def isLowerAlnum (c : Char) : Bool :=
  (('a' : Char) ≤ c && c ≤ ('z' : Char)) || (('0' : Char) ≤ c && c ≤ ('9' : Char))

/-- `normalize = (str) => str.toLowerCase().replace(/[^a-z0-9]/g, '')`,
as a character list (ASCII lowercasing). -/
def normalize (s : String) : List Char :=
  (s.toList.map Char.toLower).filter isLowerAlnum

/-- Does `pat` occur at the head of the list (helper for `includes`). -/
def startsWithL : List Char → List Char → Bool
  | _, [] => true
  | [], _ :: _ => false
  | a :: as, b :: bs => a == b && startsWithL as bs

/-- JavaScript `String.prototype.includes` on character lists. -/
def includesL : List Char → List Char → Bool
  | [], pat => pat.isEmpty
  | c :: cs, pat => startsWithL (c :: cs) pat || includesL cs pat

/-- Split a character list at every '-' (JavaScript `split('-')`). -/
def splitDash : List Char → List (List Char)
  | [] => [[]]
  | c :: cs =>
      let r := splitDash cs
      if c == ('-' : Char) then [] :: r
      else
        match r with
        | [] => [[c]]
        | g :: gs => (c :: g) :: gs

def digitsToNatAux : List Char → Nat → Option Nat
  | [], acc => some acc
  | c :: cs, acc =>
      if c.isDigit then digitsToNatAux cs (acc * 10 + (c.toNat - 48)) else none

/-- Parse a non-empty all-digit character list. -/
def digitsToNat (cs : List Char) : Option Nat :=
  if cs.isEmpty then none else digitsToNatAux cs 0

def isLeap (y : Nat) : Bool :=
  (y % 4 == 0 && y % 100 != 0) || y % 400 == 0

def daysInMonth (y m : Nat) : Nat :=
  if m == 2 then (if isLeap y then 29 else 28)
  else if m == 4 || m == 6 || m == 9 || m == 11 then 30
  else 31

/-- Days since the Unix epoch of a civil date (proleptic Gregorian, the
count `new Date("YYYY-MM-DD").getTime() / 86400000` yields for a valid
ISO date-only string, which is interpreted as UTC midnight). -/
def daysFromCivil (y m d : Nat) : Int :=
  if m ≤ 2 && y == 0 then
    let doy := (153 * (m + 9) + 2) / 5 + d - 1
    let doe := 399 * 365 + 399 / 4 - 399 / 100 + doy
    (-146097 : Int) + (doe : Int) - 719468
  else
    let yi : Nat := if m ≤ 2 then y - 1 else y
    let era := yi / 400
    let yoe := yi % 400
    let mp := if m > 2 then m - 3 else m + 9
    let doy := (153 * mp + 2) / 5 + d - 1
    let doe := yoe * 365 + yoe / 4 - yoe / 100 + doy
    (era : Int) * 146097 + (doe : Int) - 719468

/-- Model of `new Date(s).getTime()` for the `YYYY-MM-DD` strings the data
model carries, in whole days instead of milliseconds; `none` models the NaN
an invalid date produces. -/
def parseDateDays (s : String) : Option Int :=
  match splitDash s.toList with
  | [ys, ms, ds] =>
      if ys.length == 4 && ms.length == 2 && ds.length == 2 then
        match digitsToNat ys, digitsToNat ms, digitsToNat ds with
        | some y, some m, some d =>
            if 1 ≤ m && m ≤ 12 && 1 ≤ d && d ≤ daysInMonth y m then
              some (daysFromCivil y m d)
            else none
        | _, _, _ => none
      else none
  | _ => none

/-- `Math.abs(ledgerAmount - bankAmount) < 0.01`, written over the numerators
and denominators so that it evaluates by integer arithmetic (`Rat.sub` is
irreducible); `amountMatch_iff` below proves it equal to `|l - b| < 1/100`. -/
def amountMatch (ledgerAmt bankAmt : ℚ) : Bool :=
  decide (100 * (ledgerAmt.num * bankAmt.den - bankAmt.num * ledgerAmt.den).natAbs <
    ledgerAmt.den * bankAmt.den)

/-- `amountMatch` is exactly the tolerance test `|l - b| < 0.01` the source
writes. -/
theorem amountMatch_iff (l b : ℚ) :
    amountMatch l b = true ↔ |l - b| < 1/100 := by
  have hld : ((l.den : ℚ)) ≠ 0 := Nat.cast_ne_zero.mpr l.den_nz
  have hbd : ((b.den : ℚ)) ≠ 0 := Nat.cast_ne_zero.mpr b.den_nz
  have hNpos : (0:ℚ) < ((l.den * b.den : ℕ) : ℚ) := by
    exact_mod_cast Nat.mul_pos (Nat.pos_of_ne_zero l.den_nz) (Nat.pos_of_ne_zero b.den_nz)
  have hsub : l - b = ((l.num * b.den - b.num * l.den : ℤ) : ℚ) /
      ((l.den * b.den : ℕ) : ℚ) := by
    conv_lhs => rw [← Rat.num_div_den l, ← Rat.num_div_den b]
    rw [div_sub_div _ _ hld hbd]
    push_cast
    ring_nf
  rw [amountMatch, decide_eq_true_iff, hsub, abs_div, abs_of_pos hNpos,
    div_lt_div_iff₀ hNpos (by norm_num : (0:ℚ) < 100), ← Int.cast_abs,
    Int.abs_eq_natAbs, one_mul]
  norm_cast
  omega

/-- Pass 1 candidate test (reconciliationService, lines 134-138):
amount within 0.01, identical date string, identical type. -/
def exactPred (bankTx ledgerTx : Transaction) : Bool :=
  amountMatch ledgerTx.amount bankTx.amount &&
  decide (ledgerTx.date = bankTx.date) &&
  decide (ledgerTx.type = bankTx.type)

/-- Pass 2 candidate test (lines 159-168): amount within 0.01, same type,
dates at most 3 days apart; an unparseable date (NaN) never matches. -/
def fuzzyPred (bankTx ledgerTx : Transaction) : Bool :=
  let typeMatch := decide (ledgerTx.type = bankTx.type)
  match parseDateDays bankTx.date, parseDateDays ledgerTx.date with
  | some d1, some d2 =>
      amountMatch ledgerTx.amount bankTx.amount && typeMatch &&
        decide ((d1 - d2).natAbs ≤ 3)
  | _, _ => false

/-- Pass 3 candidate test (lines 187-193): amount within 0.01, same type,
normalized descriptions related by substring containment either way. -/
def descPred (bankTx ledgerTx : Transaction) : Bool :=
  let typeMatch := decide (ledgerTx.type = bankTx.type)
  let descSim := includesL (normalize bankTx.description) (normalize ledgerTx.description) ||
                 includesL (normalize ledgerTx.description) (normalize bankTx.description)
  amountMatch ledgerTx.amount bankTx.amount && typeMatch && descSim

def exactNote : String := "Exact match on Date, Amount, and Type"

def fuzzyNote : String := "Match on Amount/Type within 3 days"

def descNote : String := "Match on Amount and similar Description"

/-- `unmatchedLedger.findIndex(pred)` followed by `splice(matchIndex, 1)`:
return the first element satisfying `p` together with the pool with that
element removed, or `none` when `findIndex` returns -1. -/
def extractFirst (p : Transaction → Bool) :
    List Transaction → Option (Transaction × List Transaction)
  | [] => none
  | l :: ls =>
      if p l then some (l, ls)
      else
        match extractFirst p ls with
        | some (x, rest) => some (x, l :: rest)
        | none => none

/-- One matching pass: the `for (let i = unmatchedBank.length - 1; i >= 0; i--)`
loop with `findIndex`/`splice`.  The bank list is walked structurally but each
element is handled only after its tail (higher indices), so the last input
element is processed first, exactly as the reverse `for` loop does; its match,
when found, is pushed first.  Returns (matches pushed this pass, surviving
bank pool, surviving ledger pool). -/
def runPass (p : Transaction → Transaction → Bool) (conf : ℚ) (note : String) :
    List Transaction → List Transaction →
      List MatchedTransaction × List Transaction × List Transaction
  | [], ledger => ([], [], ledger)
  | b :: bs, ledger =>
      let r := runPass p conf note bs ledger
      match extractFirst (p b) r.2.2 with
      | some (l, ledger2) =>
          (r.1 ++ [{ bankParams := b, ledgerParams := l,
                     confidence := conf, notes := some note }], r.2.1, ledger2)
      | none => (r.1, b :: r.2.1, r.2.2)

/-- Pass 1 of `reconcileTransactions`: exact match on amount/date/type. -/
def pass1 (bank ledger : List Transaction) :
    List MatchedTransaction × List Transaction × List Transaction :=
  runPass exactPred 1 exactNote bank ledger

/-- Pass 2, over the pools Pass 1 leaves behind: fuzzy date match. -/
def pass2 (bank ledger : List Transaction) :
    List MatchedTransaction × List Transaction × List Transaction :=
  runPass fuzzyPred (9/10) fuzzyNote (pass1 bank ledger).2.1 (pass1 bank ledger).2.2

/-- Pass 3, over the pools Pass 2 leaves behind: description-similarity match. -/
def pass3 (bank ledger : List Transaction) :
    List MatchedTransaction × List Transaction × List Transaction :=
  runPass descPred (7/10) descNote (pass2 bank ledger).2.1 (pass2 bank ledger).2.2

/-- `reconcileTransactions` (reconciliationService, lines 118-225). -/
def reconcileTransactions (bankTransactions ledgerTransactions : List Transaction) :
    ReconciliationReport :=
  let ms := (pass1 bankTransactions ledgerTransactions).1 ++
    (pass2 bankTransactions ledgerTransactions).1 ++
    (pass3 bankTransactions ledgerTransactions).1
  let unmatchedBank := (pass3 bankTransactions ledgerTransactions).2.1
  let unmatchedLedger := (pass3 bankTransactions ledgerTransactions).2.2
  { «matches» := ms
    unmatchedBank := unmatchedBank
    unmatchedLedger := unmatchedLedger
    summary := {
      totalMatchedAmount := ms.foldl (fun acc m => acc + m.bankParams.amount) 0
      totalUnmatchedBankAmount := unmatchedBank.foldl (fun acc t => acc + t.amount) 0
      totalUnmatchedLedgerAmount := unmatchedLedger.foldl (fun acc t => acc + t.amount) 0
      matchCount := ms.length
      discrepancyCount := unmatchedBank.length + unmatchedLedger.length } }

/-- `SAMPLE_BANK_DATA` (constants file). -/
def SAMPLE_BANK_DATA : List Transaction :=
  [ { id := "bank-1", date := "2024-03-01",
      description := "TechSolutions Inc - Inv #2024-001",
      amount := 12500, type := .CREDIT, source := .BANK,
      reference := some "WIRE-998877" },
    { id := "bank-2", date := "2024-03-03",
      description := "Office Depot - Supplies",
      amount := mkRat 491 2, type := .DEBIT, source := .BANK },
    { id := "bank-3", date := "2024-03-05",
      description := "Uber Ride - Client Meeting",
      amount := mkRat 226 5, type := .DEBIT, source := .BANK },
    { id := "bank-4", date := "2024-03-10",
      description := "Monthly Bank Service Fee",
      amount := 35, type := .DEBIT, source := .BANK },
    { id := "bank-5", date := "2024-03-15",
      description := "Check Deposit - Client B",
      amount := 4500, type := .CREDIT, source := .BANK,
      reference := some "CHK-1002" },
    { id := "bank-6", date := "2024-03-20",
      description := "AWS Cloud Services",
      amount := 890, type := .DEBIT, source := .BANK } ]

/-- `SAMPLE_LEDGER_DATA` (constants file). -/
def SAMPLE_LEDGER_DATA : List Transaction :=
  [ { id := "ledger-1", date := "2024-03-01",
      description := "TechSolutions Invoice Payment",
      amount := 12500, type := .CREDIT, source := .LEDGER },
    { id := "ledger-2", date := "2024-03-03",
      description := "Office Supplies",
      amount := mkRat 491 2, type := .DEBIT, source := .LEDGER },
    { id := "ledger-3", date := "2024-03-12",
      description := "Client B Payment (Check)",
      amount := 4500, type := .CREDIT, source := .LEDGER },
    { id := "ledger-4", date := "2024-03-20",
      description := "Amazon Web Services",
      amount := 890, type := .DEBIT, source := .LEDGER },
    { id := "ledger-5", date := "2024-03-25",
      description := "Software License Annual",
      amount := 1200, type := .DEBIT, source := .LEDGER } ]

/-! ### Helper lemmas about `extractFirst` -/

theorem extractFirst_eq_none {p : Transaction → Bool} {ls : List Transaction}
    (h : extractFirst p ls = none) : ∀ x ∈ ls, p x = false := by
  induction ls with
  | nil => intro x hx; exact absurd hx (List.not_mem_nil x)
  | cons l ls ih =>
      intro x hx
      rw [extractFirst] at h
      cases hpl : p l with
      | true => simp [hpl] at h
      | false =>
          simp only [hpl, Bool.false_eq_true, if_false] at h
          cases heq : extractFirst p ls with
          | some v => rw [heq] at h; exact absurd h (by simp)
          | none =>
              rcases List.mem_cons.mp hx with rfl | hx2
              · exact hpl
              · exact ih heq x hx2

theorem extractFirst_eq_some {p : Transaction → Bool} {ls rest : List Transaction}
    {x : Transaction} (h : extractFirst p ls = some (x, rest)) :
    ∃ pre post, ls = pre ++ x :: post ∧ rest = pre ++ post ∧ p x = true ∧
      ∀ y ∈ pre, p y = false := by
  induction ls generalizing rest with
  | nil => rw [extractFirst] at h; exact absurd h (by simp)
  | cons l ls ih =>
      rw [extractFirst] at h
      cases hpl : p l with
      | true =>
          simp only [hpl, if_true, Option.some.injEq, Prod.mk.injEq] at h
          obtain ⟨rfl, rfl⟩ := h
          exact ⟨[], ls, rfl, rfl, hpl, by intro y hy; exact absurd hy (List.not_mem_nil y)⟩
      | false =>
          simp only [hpl, Bool.false_eq_true, if_false] at h
          cases heq : extractFirst p ls with
          | none => rw [heq] at h; exact absurd h (by simp)
          | some v =>
              obtain ⟨x2, rest2⟩ := v
              rw [heq] at h
              simp only [Option.some.injEq, Prod.mk.injEq] at h
              obtain ⟨rfl, rfl⟩ := h
              obtain ⟨pre, post, hls, hr2, hpx, hpre⟩ := ih heq
              refine ⟨l :: pre, post, by rw [hls]; rfl, by rw [hr2]; rfl, hpx, ?_⟩
              intro y hy
              rcases List.mem_cons.mp hy with rfl | hy2
              · exact hpl
              · exact hpre y hy2

theorem extractFirst_perm {p : Transaction → Bool} {ls rest : List Transaction}
    {x : Transaction} (h : extractFirst p ls = some (x, rest)) :
    (x :: rest).Perm ls := by
  obtain ⟨pre, post, hls, hrest, -, -⟩ := extractFirst_eq_some h
  rw [hls, hrest]
  exact List.perm_middle.symm

theorem extractFirst_sublist {p : Transaction → Bool} {ls rest : List Transaction}
    {x : Transaction} (h : extractFirst p ls = some (x, rest)) :
    rest.Sublist ls := by
  obtain ⟨pre, post, hls, hrest, -, -⟩ := extractFirst_eq_some h
  rw [hls, hrest]
  exact (List.sublist_cons_self x post).append_left pre

theorem extractFirst_mem {p : Transaction → Bool} {ls rest : List Transaction}
    {x : Transaction} (h : extractFirst p ls = some (x, rest)) : x ∈ ls :=
  (extractFirst_perm h).subset (List.mem_cons_self x rest)

/-! ### Helper lemmas about `runPass` -/

theorem runPass_perm_bank (p : Transaction → Transaction → Bool) (c : ℚ) (n : String)
    (bank ledger : List Transaction) :
    ((runPass p c n bank ledger).1.map (fun m => m.bankParams) ++
      (runPass p c n bank ledger).2.1).Perm bank := by
  induction bank with
  | nil => simp [runPass]
  | cons b bs ih =>
      rw [runPass]
      cases heq : extractFirst (p b) (runPass p c n bs ledger).2.2 with
      | some v =>
          obtain ⟨l, led2⟩ := v
          simp only [List.map_append, List.map_cons, List.map_nil, List.append_assoc,
            List.singleton_append]
          exact List.perm_middle.trans (ih.cons b)
      | none =>
          simp only []
          exact List.perm_middle.trans (ih.cons b)

theorem runPass_perm_ledger (p : Transaction → Transaction → Bool) (c : ℚ) (n : String)
    (bank ledger : List Transaction) :
    ((runPass p c n bank ledger).1.map (fun m => m.ledgerParams) ++
      (runPass p c n bank ledger).2.2).Perm ledger := by
  induction bank with
  | nil => simp [runPass]
  | cons b bs ih =>
      rw [runPass]
      cases heq : extractFirst (p b) (runPass p c n bs ledger).2.2 with
      | some v =>
          obtain ⟨l, led2⟩ := v
          simp only [List.map_append, List.map_cons, List.map_nil, List.append_assoc,
            List.singleton_append]
          exact (((extractFirst_perm heq).append_left _).trans ih)
      | none => exact ih

theorem runPass_bank_sublist (p : Transaction → Transaction → Bool) (c : ℚ) (n : String)
    (bank ledger : List Transaction) :
    (runPass p c n bank ledger).2.1.Sublist bank := by
  induction bank with
  | nil => simp [runPass]
  | cons b bs ih =>
      rw [runPass]
      cases heq : extractFirst (p b) (runPass p c n bs ledger).2.2 with
      | some v =>
          obtain ⟨l, led2⟩ := v
          exact ih.cons b
      | none => exact ih.cons₂ b

theorem runPass_ledger_sublist (p : Transaction → Transaction → Bool) (c : ℚ) (n : String)
    (bank ledger : List Transaction) :
    (runPass p c n bank ledger).2.2.Sublist ledger := by
  induction bank with
  | nil => simp [runPass]
  | cons b bs ih =>
      rw [runPass]
      cases heq : extractFirst (p b) (runPass p c n bs ledger).2.2 with
      | some v =>
          obtain ⟨l, led2⟩ := v
          exact (extractFirst_sublist heq).trans ih
      | none => exact ih

theorem runPass_order (p : Transaction → Transaction → Bool) (c : ℚ) (n : String)
    (bank ledger : List Transaction) :
    ((runPass p c n bank ledger).1.map (fun m => m.bankParams)).Sublist bank.reverse := by
  induction bank with
  | nil => simp [runPass]
  | cons b bs ih =>
      rw [runPass]
      cases heq : extractFirst (p b) (runPass p c n bs ledger).2.2 with
      | some v =>
          obtain ⟨l, led2⟩ := v
          simp only [List.map_append, List.map_cons, List.map_nil, List.reverse_cons]
          exact ih.append (List.Sublist.refl [b])
      | none =>
          simp only [List.reverse_cons]
          exact ih.trans (List.sublist_append_left bs.reverse [b])

theorem runPass_saturated (p : Transaction → Transaction → Bool) (c : ℚ) (n : String)
    (bank ledger : List Transaction) :
    ∀ b ∈ (runPass p c n bank ledger).2.1, ∀ l ∈ (runPass p c n bank ledger).2.2,
      p b l = false := by
  induction bank with
  | nil => intro b hb; rw [runPass] at hb; exact absurd hb (List.not_mem_nil b)
  | cons b bs ih =>
      rw [runPass]
      cases heq : extractFirst (p b) (runPass p c n bs ledger).2.2 with
      | some v =>
          obtain ⟨l, led2⟩ := v
          intro b2 hb2 l2 hl2
          exact ih b2 hb2 l2 ((extractFirst_sublist heq).subset hl2)
      | none =>
          intro b2 hb2 l2 hl2
          rcases List.mem_cons.mp hb2 with rfl | hb3
          · exact extractFirst_eq_none heq l2 hl2
          · exact ih b2 hb3 l2 hl2

theorem runPass_mem (p : Transaction → Transaction → Bool) (c : ℚ) (n : String)
    (bank ledger : List Transaction) :
    ∀ m ∈ (runPass p c n bank ledger).1,
      m.bankParams ∈ bank ∧ m.ledgerParams ∈ ledger := by
  induction bank with
  | nil => intro m hm; rw [runPass] at hm; exact absurd hm (List.not_mem_nil m)
  | cons b bs ih =>
      rw [runPass]
      cases heq : extractFirst (p b) (runPass p c n bs ledger).2.2 with
      | some v =>
          obtain ⟨l, led2⟩ := v
          intro m hm
          rcases List.mem_append.mp hm with hm1 | hm2
          · obtain ⟨h1, h2⟩ := ih m hm1
            exact ⟨List.mem_cons_of_mem b h1, h2⟩
          · rw [List.mem_singleton.mp hm2]
            refine ⟨List.mem_cons_self b bs, ?_⟩
            exact (runPass_ledger_sublist p c n bs ledger).subset (extractFirst_mem heq)
      | none =>
          intro m hm
          obtain ⟨h1, h2⟩ := ih m hm
          exact ⟨List.mem_cons_of_mem b h1, h2⟩

theorem runPass_conf (p : Transaction → Transaction → Bool) (c : ℚ) (n : String)
    (bank ledger : List Transaction) :
    ∀ m ∈ (runPass p c n bank ledger).1, m.confidence = c ∧ m.notes = some n := by
  induction bank with
  | nil => intro m hm; rw [runPass] at hm; exact absurd hm (List.not_mem_nil m)
  | cons b bs ih =>
      rw [runPass]
      cases heq : extractFirst (p b) (runPass p c n bs ledger).2.2 with
      | some v =>
          obtain ⟨l, led2⟩ := v
          intro m hm
          rcases List.mem_append.mp hm with hm1 | hm2
          · exact ih m hm1
          · rw [List.mem_singleton.mp hm2]
            exact ⟨rfl, rfl⟩
      | none => exact ih

theorem foldl_add_eq {α : Type} (f : α → ℚ) (l : List α) :
    ∀ a : ℚ, l.foldl (fun acc x => acc + f x) a = a + (l.map f).sum := by
  induction l with
  | nil => intro a; simp
  | cons x xs ih =>
      intro a
      simp only [List.foldl_cons, List.map_cons, List.sum_cons, ih (a + f x)]
      ring

/-- Processing the bank pool in reverse input order: the last bank element is
handled first, against the full ledger pool, and its match (when any) is
pushed first; when unmatched it ends up last in the surviving pool. -/
theorem runPass_concat (p : Transaction → Transaction → Bool) (c : ℚ) (n : String)
    (b : Transaction) (bs : List Transaction) :
    ∀ ledger : List Transaction,
      runPass p c n (bs ++ [b]) ledger =
        match extractFirst (p b) ledger with
        | some (l, led2) =>
            (({ bankParams := b, ledgerParams := l, confidence := c,
                notes := some n } : MatchedTransaction) ::
                (runPass p c n bs led2).1,
             (runPass p c n bs led2).2.1, (runPass p c n bs led2).2.2)
        | none =>
            ((runPass p c n bs ledger).1,
             (runPass p c n bs ledger).2.1 ++ [b], (runPass p c n bs ledger).2.2) := by
  induction bs with
  | nil =>
      intro ledger
      rw [List.nil_append]
      cases heq : extractFirst (p b) ledger with
      | some v =>
          obtain ⟨l, led2⟩ := v
          simp [runPass, heq]
      | none => simp [runPass, heq]
  | cons x xs ih =>
      intro ledger
      rw [List.cons_append, runPass, ih ledger]
      cases heq : extractFirst (p b) ledger with
      | some v =>
          obtain ⟨l, led2⟩ := v
          simp only [heq]
          rw [runPass]
          cases heq2 : extractFirst (p x) (runPass p c n xs led2).2.2 with
          | some v2 =>
              obtain ⟨lx, led3⟩ := v2
              simp [heq2]
          | none => simp [heq2]
      | none =>
          simp only [heq]
          rw [runPass]
          cases heq2 : extractFirst (p x) (runPass p c n xs ledger).2.2 with
          | some v2 =>
              obtain ⟨lx, led3⟩ := v2
              simp [heq2]
          | none => simp [heq2]

/-! ### Helper lemmas about `reconcileTransactions` as the composition of the
three passes -/

theorem reconcile_matches_eq (bank ledger : List Transaction) :
    (reconcileTransactions bank ledger).«matches» =
      (pass1 bank ledger).1 ++ (pass2 bank ledger).1 ++ (pass3 bank ledger).1 := rfl

theorem reconcile_unmatchedBank_eq (bank ledger : List Transaction) :
    (reconcileTransactions bank ledger).unmatchedBank = (pass3 bank ledger).2.1 := rfl

theorem reconcile_unmatchedLedger_eq (bank ledger : List Transaction) :
    (reconcileTransactions bank ledger).unmatchedLedger = (pass3 bank ledger).2.2 := rfl

theorem reconcile_totalMatched_eq (bank ledger : List Transaction) :
    (reconcileTransactions bank ledger).summary.totalMatchedAmount =
      (reconcileTransactions bank ledger).«matches».foldl
        (fun acc m => acc + m.bankParams.amount) 0 := rfl

theorem reconcile_totalUnmatchedBank_eq (bank ledger : List Transaction) :
    (reconcileTransactions bank ledger).summary.totalUnmatchedBankAmount =
      (reconcileTransactions bank ledger).unmatchedBank.foldl
        (fun acc t => acc + t.amount) 0 := rfl

theorem reconcile_totalUnmatchedLedger_eq (bank ledger : List Transaction) :
    (reconcileTransactions bank ledger).summary.totalUnmatchedLedgerAmount =
      (reconcileTransactions bank ledger).unmatchedLedger.foldl
        (fun acc t => acc + t.amount) 0 := rfl

theorem pass2_perm_bank (bank ledger : List Transaction) :
    ((pass2 bank ledger).1.map (fun m => m.bankParams) ++
      (pass2 bank ledger).2.1).Perm (pass1 bank ledger).2.1 :=
  runPass_perm_bank fuzzyPred (9/10) fuzzyNote (pass1 bank ledger).2.1 (pass1 bank ledger).2.2

theorem pass3_perm_bank (bank ledger : List Transaction) :
    ((pass3 bank ledger).1.map (fun m => m.bankParams) ++
      (pass3 bank ledger).2.1).Perm (pass2 bank ledger).2.1 :=
  runPass_perm_bank descPred (7/10) descNote (pass2 bank ledger).2.1 (pass2 bank ledger).2.2

theorem pass2_perm_ledger (bank ledger : List Transaction) :
    ((pass2 bank ledger).1.map (fun m => m.ledgerParams) ++
      (pass2 bank ledger).2.2).Perm (pass1 bank ledger).2.2 :=
  runPass_perm_ledger fuzzyPred (9/10) fuzzyNote (pass1 bank ledger).2.1 (pass1 bank ledger).2.2

theorem pass3_perm_ledger (bank ledger : List Transaction) :
    ((pass3 bank ledger).1.map (fun m => m.ledgerParams) ++
      (pass3 bank ledger).2.2).Perm (pass2 bank ledger).2.2 :=
  runPass_perm_ledger descPred (7/10) descNote (pass2 bank ledger).2.1 (pass2 bank ledger).2.2

/-- Bank-side partition of the final report, as a permutation. -/
theorem reconcile_perm_bank (bank ledger : List Transaction) :
    ((reconcileTransactions bank ledger).«matches».map (fun m => m.bankParams) ++
      (reconcileTransactions bank ledger).unmatchedBank).Perm bank := by
  rw [reconcile_matches_eq, reconcile_unmatchedBank_eq]
  have h1 := runPass_perm_bank exactPred 1 exactNote bank ledger
  have h2 := pass2_perm_bank bank ledger
  have h3 := pass3_perm_bank bank ledger
  simp only [List.map_append, List.append_assoc]
  exact (((h3.append_left _).trans h2).append_left _).trans h1

/-- Ledger-side partition of the final report, as a permutation. -/
theorem reconcile_perm_ledger (bank ledger : List Transaction) :
    ((reconcileTransactions bank ledger).«matches».map (fun m => m.ledgerParams) ++
      (reconcileTransactions bank ledger).unmatchedLedger).Perm ledger := by
  rw [reconcile_matches_eq, reconcile_unmatchedLedger_eq]
  have h1 := runPass_perm_ledger exactPred 1 exactNote bank ledger
  have h2 := pass2_perm_ledger bank ledger
  have h3 := pass3_perm_ledger bank ledger
  simp only [List.map_append, List.append_assoc]
  exact (((h3.append_left _).trans h2).append_left _).trans h1

theorem pass1_bank_sublist (bank ledger : List Transaction) :
    (pass1 bank ledger).2.1.Sublist bank :=
  runPass_bank_sublist exactPred 1 exactNote bank ledger

theorem pass2_bank_sublist (bank ledger : List Transaction) :
    (pass2 bank ledger).2.1.Sublist (pass1 bank ledger).2.1 :=
  runPass_bank_sublist fuzzyPred (9/10) fuzzyNote (pass1 bank ledger).2.1 (pass1 bank ledger).2.2

theorem pass3_bank_sublist (bank ledger : List Transaction) :
    (pass3 bank ledger).2.1.Sublist (pass2 bank ledger).2.1 :=
  runPass_bank_sublist descPred (7/10) descNote (pass2 bank ledger).2.1 (pass2 bank ledger).2.2

theorem pass1_ledger_sublist (bank ledger : List Transaction) :
    (pass1 bank ledger).2.2.Sublist ledger :=
  runPass_ledger_sublist exactPred 1 exactNote bank ledger

theorem pass2_ledger_sublist (bank ledger : List Transaction) :
    (pass2 bank ledger).2.2.Sublist (pass1 bank ledger).2.2 :=
  runPass_ledger_sublist fuzzyPred (9/10) fuzzyNote (pass1 bank ledger).2.1 (pass1 bank ledger).2.2

theorem pass3_ledger_sublist (bank ledger : List Transaction) :
    (pass3 bank ledger).2.2.Sublist (pass2 bank ledger).2.2 :=
  runPass_ledger_sublist descPred (7/10) descNote (pass2 bank ledger).2.1 (pass2 bank ledger).2.2

theorem includesL_nil (s : List Char) : includesL s [] = true := by
  cases s with
  | nil => rfl
  | cons c cs => rfl

/-! ### Concrete fixtures used to instantiate hypothesis-bearing theorems -/

def wBank : Transaction :=
  { id := "wb", date := "2024-05-01", description := "Coffee",
    amount := 5, type := .DEBIT, source := .BANK }

def wLedger : Transaction :=
  { id := "wl", date := "2024-05-01", description := "Coffee Shop",
    amount := 5, type := .DEBIT, source := .LEDGER }

def wMatch : MatchedTransaction :=
  { bankParams := wBank, ledgerParams := wLedger, confidence := 1,
    notes := some exactNote }

def wEmptyDesc : Transaction :=
  { id := "we", date := "2024-05-02", description := "###",
    amount := 7, type := .CREDIT, source := .BANK }

def wPlainDesc : Transaction :=
  { id := "wp", date := "2024-07-09", description := "Refund",
    amount := 7, type := .CREDIT, source := .LEDGER }

def cexBankA : Transaction :=
  { id := "cex-bank-a", date := "2024-03-15", description := "X",
    amount := 4500, type := .CREDIT, source := .BANK }

def cexBankB : Transaction :=
  { id := "cex-bank-b", date := "2024-03-14", description := "Y",
    amount := 4500, type := .CREDIT, source := .BANK }

def cexLedgerC : Transaction :=
  { id := "cex-ledger-c", date := "2024-03-12", description := "Z",
    amount := 4500, type := .CREDIT, source := .LEDGER }

/-! ### Claim theorems -/

/-- C1: for every pair of input sequences, every bank transaction appears
(counted with multiplicity) in exactly one of the report's matches (as the
bank side) or in `unmatchedBank` — never in both, never in neither — and
symmetrically every ledger transaction appears in exactly one of matches
(as the ledger side) or `unmatchedLedger`. -/
theorem reconcile_partition (bank ledger : List Transaction) :
    ((reconcileTransactions bank ledger).«matches».map (fun m => m.bankParams) ++
      (reconcileTransactions bank ledger).unmatchedBank).Perm bank ∧
    ((reconcileTransactions bank ledger).«matches».map (fun m => m.ledgerParams) ++
      (reconcileTransactions bank ledger).unmatchedLedger).Perm ledger ∧
    (∀ t : Transaction, bank.count t =
      ((reconcileTransactions bank ledger).«matches».map
        (fun m => m.bankParams)).count t +
      (reconcileTransactions bank ledger).unmatchedBank.count t) ∧
    (∀ t : Transaction, ledger.count t =
      ((reconcileTransactions bank ledger).«matches».map
        (fun m => m.ledgerParams)).count t +
      (reconcileTransactions bank ledger).unmatchedLedger.count t) := by
  refine ⟨reconcile_perm_bank bank ledger, reconcile_perm_ledger bank ledger, ?_, ?_⟩
  · intro t
    have h := ((reconcile_perm_bank bank ledger).count_eq t).symm
    rw [List.count_append] at h
    exact h
  · intro t
    have h := ((reconcile_perm_ledger bank ledger).count_eq t).symm
    rw [List.count_append] at h
    exact h

/-- C2: in Pass 1, iterating over the bank pool in reverse input order, each
bank transaction is paired with the first ledger transaction in forward order
of the remaining ledger pool whose amount differs by strictly less than 0.01,
whose date string is exactly equal and whose type is equal; on a hit the pair
is emitted with confidence 1.0 and the exact-match note, and both records are
removed from their pools immediately. -/
theorem pass1_exact_spec :
    (∀ (bs : List Transaction) (b : Transaction) (ledger : List Transaction),
      runPass exactPred 1 exactNote (bs ++ [b]) ledger =
        match extractFirst (exactPred b) ledger with
        | some (l, led2) =>
            (({ bankParams := b, ledgerParams := l, confidence := 1,
                notes := some exactNote } : MatchedTransaction) ::
                (runPass exactPred 1 exactNote bs led2).1,
             (runPass exactPred 1 exactNote bs led2).2.1,
             (runPass exactPred 1 exactNote bs led2).2.2)
        | none =>
            ((runPass exactPred 1 exactNote bs ledger).1,
             (runPass exactPred 1 exactNote bs ledger).2.1 ++ [b],
             (runPass exactPred 1 exactNote bs ledger).2.2)) ∧
    (∀ (p : Transaction → Bool) (ls rest : List Transaction) (x : Transaction),
      extractFirst p ls = some (x, rest) →
        ∃ pre post, ls = pre ++ x :: post ∧ rest = pre ++ post ∧ p x = true ∧
          ∀ y ∈ pre, p y = false) ∧
    (∀ bankTx ledgerTx : Transaction,
      exactPred bankTx ledgerTx = true ↔
        (|ledgerTx.amount - bankTx.amount| < 1/100 ∧ ledgerTx.date = bankTx.date ∧
          ledgerTx.type = bankTx.type)) := by
  refine ⟨fun bs b ledger => runPass_concat exactPred 1 exactNote b bs ledger,
    fun p ls rest x h => extractFirst_eq_some h, ?_⟩
  intro bankTx ledgerTx
  simp only [exactPred, Bool.and_eq_true, decide_eq_true_iff, amountMatch_iff, and_assoc]

/-- C2 witness: on the pool `[wLedger]`, the bank transaction `wBank` is
paired with the first (and only) eligible ledger transaction. -/
theorem pass1_exact_spec_witness :
    ∃ pre post, [wLedger] = pre ++ wLedger :: post ∧
      ([] : List Transaction) = pre ++ post ∧ exactPred wBank wLedger = true ∧
      ∀ y ∈ pre, exactPred wBank y = false :=
  pass1_exact_spec.2.1 (exactPred wBank) [wLedger] [] wLedger (by decide)

/-- C3 counterexample: the claim's universal scenario is false as stated.
`cexBankA` (CREDIT 4500.00 dated 2024-03-15) and `cexLedgerC` (CREDIT 4500.00
dated 2024-03-12) both survive Pass 1 and no exact-date match exists anywhere,
yet that pair is not matched in Pass 2 (or at all), because the later bank
transaction `cexBankB` is processed first in reverse order and claims
`cexLedgerC`. -/
theorem pass2_scenario_cex :
    cexBankA.date = "2024-03-15" ∧ cexBankA.amount = 4500 ∧
    cexBankA.type = TransactionType.CREDIT ∧
    cexLedgerC.date = "2024-03-12" ∧ cexLedgerC.amount = 4500 ∧
    cexLedgerC.type = TransactionType.CREDIT ∧
    cexBankA ∈ (pass1 [cexBankA, cexBankB] [cexLedgerC]).2.1 ∧
    cexLedgerC ∈ (pass1 [cexBankA, cexBankB] [cexLedgerC]).2.2 ∧
    (∀ b ∈ [cexBankA, cexBankB], ∀ l ∈ [cexLedgerC], exactPred b l = false) ∧
    ¬ ∃ m ∈ (reconcileTransactions [cexBankA, cexBankB] [cexLedgerC]).«matches»,
        m.bankParams.id = cexBankA.id ∧ m.ledgerParams.id = cexLedgerC.id := by
  decide

/-- C3 (amended): in Pass 2, run over the pools left by Pass 1 with the same
reverse-bank / forward-ledger scan order, a ledger candidate matches exactly
when the amounts differ by strictly less than 0.01, the types are equal, and
the two calendar dates are at most 3 whole days apart; the emitted pair has
confidence 0.9 and the fuzzy note.  In particular, on the sample fixtures —
where no competing fuzzy candidate intervenes — the bank CREDIT of 4500.00
dated 2024-03-15 (`bank-5`) and the ledger CREDIT of 4500.00 dated 2024-03-12
(`ledger-3`) are matched in Pass 2 with confidence 0.9. -/
theorem pass2_fuzzy_spec :
    (∀ (bs : List Transaction) (b : Transaction) (ledger : List Transaction),
      runPass fuzzyPred (9/10) fuzzyNote (bs ++ [b]) ledger =
        match extractFirst (fuzzyPred b) ledger with
        | some (l, led2) =>
            (({ bankParams := b, ledgerParams := l, confidence := 9/10,
                notes := some fuzzyNote } : MatchedTransaction) ::
                (runPass fuzzyPred (9/10) fuzzyNote bs led2).1,
             (runPass fuzzyPred (9/10) fuzzyNote bs led2).2.1,
             (runPass fuzzyPred (9/10) fuzzyNote bs led2).2.2)
        | none =>
            ((runPass fuzzyPred (9/10) fuzzyNote bs ledger).1,
             (runPass fuzzyPred (9/10) fuzzyNote bs ledger).2.1 ++ [b],
             (runPass fuzzyPred (9/10) fuzzyNote bs ledger).2.2)) ∧
    (∀ bankTx ledgerTx : Transaction,
      fuzzyPred bankTx ledgerTx = true ↔
        (|ledgerTx.amount - bankTx.amount| < 1/100 ∧ ledgerTx.type = bankTx.type ∧
          ∃ d1 d2 : ℤ, parseDateDays bankTx.date = some d1 ∧
            parseDateDays ledgerTx.date = some d2 ∧ (d1 - d2).natAbs ≤ 3)) ∧
    (∃ m ∈ (pass2 SAMPLE_BANK_DATA SAMPLE_LEDGER_DATA).1,
      m.bankParams.id = "bank-5" ∧ m.bankParams.date = "2024-03-15" ∧
      m.bankParams.amount = 4500 ∧ m.bankParams.type = TransactionType.CREDIT ∧
      m.ledgerParams.id = "ledger-3" ∧ m.ledgerParams.date = "2024-03-12" ∧
      m.ledgerParams.amount = 4500 ∧ m.ledgerParams.type = TransactionType.CREDIT) ∧
    (∀ m ∈ (pass2 SAMPLE_BANK_DATA SAMPLE_LEDGER_DATA).1,
      m.confidence = 9/10 ∧ m.notes = some fuzzyNote) := by
  refine ⟨fun bs b ledger => runPass_concat fuzzyPred (9/10) fuzzyNote b bs ledger,
    ?_, by decide, runPass_conf fuzzyPred (9/10) fuzzyNote _ _⟩
  intro bankTx ledgerTx
  simp only [fuzzyPred]
  cases h1 : parseDateDays bankTx.date with
  | none => simp [h1]
  | some d1 =>
      cases h2 : parseDateDays ledgerTx.date with
      | none => simp [h1, h2]
      | some d2 =>
          simp [h1, h2, Bool.and_eq_true, decide_eq_true_iff, amountMatch_iff,
            and_assoc]

/-- C3 witness: a concrete instance of the Pass-2 criterion — a 3-day date
gap with equal amount and type satisfies `fuzzyPred`. -/
theorem pass2_fuzzy_spec_witness :
    |cexLedgerC.amount - cexBankA.amount| < 1/100 ∧
    cexLedgerC.type = cexBankA.type ∧
    (∃ d1 d2 : ℤ, parseDateDays cexBankA.date = some d1 ∧
      parseDateDays cexLedgerC.date = some d2 ∧ (d1 - d2).natAbs ≤ 3) :=
  (pass2_fuzzy_spec.2.1 cexBankA cexLedgerC).mp (by decide)

/-- C4: in Pass 3, run over the pools left by Pass 2, a ledger candidate
matches exactly when the amounts differ by strictly less than 0.01, the types
are equal (no date constraint), and the normalized descriptions are related by
substring containment in either direction, where `normalize` lowercases and
strips every character that is not an ASCII letter or digit; an empty
normalized description trivially satisfies the containment, so it matches any
amount/type-equal counterpart in this pass.  The emitted pair has confidence
0.7 and the description note. -/
theorem pass3_description_spec :
    (∀ (bs : List Transaction) (b : Transaction) (ledger : List Transaction),
      runPass descPred (7/10) descNote (bs ++ [b]) ledger =
        match extractFirst (descPred b) ledger with
        | some (l, led2) =>
            (({ bankParams := b, ledgerParams := l, confidence := 7/10,
                notes := some descNote } : MatchedTransaction) ::
                (runPass descPred (7/10) descNote bs led2).1,
             (runPass descPred (7/10) descNote bs led2).2.1,
             (runPass descPred (7/10) descNote bs led2).2.2)
        | none =>
            ((runPass descPred (7/10) descNote bs ledger).1,
             (runPass descPred (7/10) descNote bs ledger).2.1 ++ [b],
             (runPass descPred (7/10) descNote bs ledger).2.2)) ∧
    (∀ bankTx ledgerTx : Transaction,
      descPred bankTx ledgerTx = true ↔
        (|ledgerTx.amount - bankTx.amount| < 1/100 ∧ ledgerTx.type = bankTx.type ∧
          (includesL (normalize bankTx.description) (normalize ledgerTx.description) = true ∨
           includesL (normalize ledgerTx.description) (normalize bankTx.description) = true))) ∧
    (∀ s : String, normalize s = (s.toList.map Char.toLower).filter isLowerAlnum) ∧
    (∀ bankTx ledgerTx : Transaction,
      (normalize bankTx.description = [] ∨ normalize ledgerTx.description = []) →
      |ledgerTx.amount - bankTx.amount| < 1/100 → ledgerTx.type = bankTx.type →
      descPred bankTx ledgerTx = true) := by
  have hiff : ∀ bankTx ledgerTx : Transaction,
      descPred bankTx ledgerTx = true ↔
        (|ledgerTx.amount - bankTx.amount| < 1/100 ∧ ledgerTx.type = bankTx.type ∧
          (includesL (normalize bankTx.description) (normalize ledgerTx.description) = true ∨
           includesL (normalize ledgerTx.description) (normalize bankTx.description) = true)) := by
    intro bankTx ledgerTx
    simp only [descPred, Bool.and_eq_true, Bool.or_eq_true, decide_eq_true_iff,
      amountMatch_iff, and_assoc]
  refine ⟨fun bs b ledger => runPass_concat descPred (7/10) descNote b bs ledger,
    hiff, fun s => rfl, ?_⟩
  intro bankTx ledgerTx hdesc hamt htype
  refine (hiff bankTx ledgerTx).mpr ⟨hamt, htype, ?_⟩
  rcases hdesc with hb | hl
  · exact Or.inr (by rw [hb]; exact includesL_nil _)
  · exact Or.inl (by rw [hl]; exact includesL_nil _)

/-- C4 witness: a transaction whose description normalizes to the empty
string (`"###"`) matches an amount/type-equal counterpart in Pass 3. -/
theorem pass3_description_spec_witness :
    descPred wEmptyDesc wPlainDesc = true :=
  pass3_description_spec.2.2.2 wEmptyDesc wPlainDesc (Or.inl (by decide))
    ((amountMatch_iff wPlainDesc.amount wEmptyDesc.amount).mp (by decide))
    (by decide)

/-- C5: no (bank, ledger) pair satisfying the Pass-1 criteria is ever emitted
as a match by Pass 2 or Pass 3: every match in the report either comes from
Pass 1 (confidence 1) or fails `exactPred`; moreover after Pass 1 no surviving
bank transaction is exact-eligible with any surviving ledger transaction — so
a bank transaction with an exact-eligible candidate still in the pool at its
turn is always claimed in Pass 1. -/
theorem pass_precedence (bank ledger : List Transaction) :
    (∀ m ∈ (reconcileTransactions bank ledger).«matches»,
      m.confidence = 1 ∨ exactPred m.bankParams m.ledgerParams = false) ∧
    (∀ b ∈ (pass1 bank ledger).2.1, ∀ l ∈ (pass1 bank ledger).2.2,
      exactPred b l = false) := by
  have hsat : ∀ b ∈ (pass1 bank ledger).2.1, ∀ l ∈ (pass1 bank ledger).2.2,
      exactPred b l = false :=
    runPass_saturated exactPred 1 exactNote bank ledger
  refine ⟨?_, hsat⟩
  intro m hm
  rw [reconcile_matches_eq] at hm
  rcases List.mem_append.mp hm with hm12 | hm3
  · rcases List.mem_append.mp hm12 with hm1 | hm2
    · exact Or.inl (runPass_conf exactPred 1 exactNote bank ledger m hm1).1
    · obtain ⟨hb, hl⟩ := runPass_mem fuzzyPred (9/10) fuzzyNote
        (pass1 bank ledger).2.1 (pass1 bank ledger).2.2 m hm2
      exact Or.inr (hsat _ hb _ hl)
  · obtain ⟨hb, hl⟩ := runPass_mem descPred (7/10) descNote
      (pass2 bank ledger).2.1 (pass2 bank ledger).2.2 m hm3
    exact Or.inr (hsat _ ((pass2_bank_sublist bank ledger).subset hb)
      _ ((pass2_ledger_sublist bank ledger).subset hl))

/-- C5 witness: the single exact match produced on `[wBank]`, `[wLedger]`
satisfies the dichotomy. -/
theorem pass_precedence_witness :
    wMatch.confidence = 1 ∨ exactPred wMatch.bankParams wMatch.ledgerParams = false :=
  (pass_precedence [wBank] [wLedger]).1 wMatch (by decide)

/-- C6: `totalMatchedAmount` sums the bank-side amounts of all matches, and
(exactly, in rational arithmetic) `totalMatchedAmount +
totalUnmatchedBankAmount` equals the sum of all bank input amounts; the
analogous identity holds on the ledger side with the sum of ledger-side
amounts of matches. -/
theorem amount_conservation (bank ledger : List Transaction) :
    (reconcileTransactions bank ledger).summary.totalMatchedAmount =
      ((reconcileTransactions bank ledger).«matches».map
        (fun m => m.bankParams.amount)).sum ∧
    (reconcileTransactions bank ledger).summary.totalMatchedAmount +
      (reconcileTransactions bank ledger).summary.totalUnmatchedBankAmount =
      (bank.map (fun t => t.amount)).sum ∧
    ((reconcileTransactions bank ledger).«matches».map
        (fun m => m.ledgerParams.amount)).sum +
      (reconcileTransactions bank ledger).summary.totalUnmatchedLedgerAmount =
      (ledger.map (fun t => t.amount)).sum := by
  have hm : (reconcileTransactions bank ledger).summary.totalMatchedAmount =
      ((reconcileTransactions bank ledger).«matches».map
        (fun m => m.bankParams.amount)).sum := by
    rw [reconcile_totalMatched_eq]
    exact (foldl_add_eq (fun m => m.bankParams.amount)
      (reconcileTransactions bank ledger).«matches» 0).trans (zero_add _)
  have hub : (reconcileTransactions bank ledger).summary.totalUnmatchedBankAmount =
      ((reconcileTransactions bank ledger).unmatchedBank.map
        (fun t => t.amount)).sum := by
    rw [reconcile_totalUnmatchedBank_eq]
    exact (foldl_add_eq (fun t => t.amount)
      (reconcileTransactions bank ledger).unmatchedBank 0).trans (zero_add _)
  have hul : (reconcileTransactions bank ledger).summary.totalUnmatchedLedgerAmount =
      ((reconcileTransactions bank ledger).unmatchedLedger.map
        (fun t => t.amount)).sum := by
    rw [reconcile_totalUnmatchedLedger_eq]
    exact (foldl_add_eq (fun t => t.amount)
      (reconcileTransactions bank ledger).unmatchedLedger 0).trans (zero_add _)
  refine ⟨hm, ?_, ?_⟩
  · have hperm := ((reconcile_perm_bank bank ledger).map (fun t => t.amount)).sum_eq
    rw [List.map_append, List.sum_append, List.map_map] at hperm
    rw [hm, hub]
    simpa [Function.comp] using hperm
  · have hperm := ((reconcile_perm_ledger bank ledger).map (fun t => t.amount)).sum_eq
    rw [List.map_append, List.sum_append, List.map_map] at hperm
    rw [hul]
    simpa [Function.comp] using hperm

/-- C7: the matches sequence is ordered by discovery — all Pass 1 pairs (the
confidence-1 ones) precede all Pass 2 pairs (confidence 0.9), which precede
all Pass 3 pairs (confidence 0.7) — and within each pass the bank sides of
the pairs form a subsequence of the reversed bank input (last bank
transaction's match first). -/
theorem matches_discovery_order (bank ledger : List Transaction) :
    (reconcileTransactions bank ledger).«matches» =
      (pass1 bank ledger).1 ++ (pass2 bank ledger).1 ++ (pass3 bank ledger).1 ∧
    (∀ m ∈ (pass1 bank ledger).1, m.confidence = 1 ∧ m.notes = some exactNote) ∧
    (∀ m ∈ (pass2 bank ledger).1, m.confidence = 9/10 ∧ m.notes = some fuzzyNote) ∧
    (∀ m ∈ (pass3 bank ledger).1, m.confidence = 7/10 ∧ m.notes = some descNote) ∧
    ((pass1 bank ledger).1.map (fun m => m.bankParams)).Sublist bank.reverse ∧
    ((pass2 bank ledger).1.map (fun m => m.bankParams)).Sublist bank.reverse ∧
    ((pass3 bank ledger).1.map (fun m => m.bankParams)).Sublist bank.reverse := by
  refine ⟨reconcile_matches_eq bank ledger,
    runPass_conf exactPred 1 exactNote bank ledger,
    runPass_conf fuzzyPred (9/10) fuzzyNote _ _,
    runPass_conf descPred (7/10) descNote _ _,
    runPass_order exactPred 1 exactNote bank ledger, ?_, ?_⟩
  · exact (runPass_order fuzzyPred (9/10) fuzzyNote
      (pass1 bank ledger).2.1 (pass1 bank ledger).2.2).trans
      (pass1_bank_sublist bank ledger).reverse
  · exact (runPass_order descPred (7/10) descNote
      (pass2 bank ledger).2.1 (pass2 bank ledger).2.2).trans
      ((pass2_bank_sublist bank ledger).reverse.trans
        (pass1_bank_sublist bank ledger).reverse)

/-- C7 witness: the Pass-1 match on `[wBank]`, `[wLedger]` carries
confidence 1 and the exact note. -/
theorem matches_discovery_order_witness :
    wMatch.confidence = 1 ∧ wMatch.notes = some exactNote :=
  (matches_discovery_order [wBank] [wLedger]).2.1 wMatch (by decide)

/-- C8: `unmatchedBank` is an order-preserving subsequence of the bank input
consisting exactly of the bank transactions not claimed by any match (the
permutation with the matches' bank sides pins down the multiset), and
likewise for `unmatchedLedger`. -/
theorem unmatched_are_subsequences (bank ledger : List Transaction) :
    (reconcileTransactions bank ledger).unmatchedBank.Sublist bank ∧
    (reconcileTransactions bank ledger).unmatchedLedger.Sublist ledger ∧
    ((reconcileTransactions bank ledger).«matches».map (fun m => m.bankParams) ++
      (reconcileTransactions bank ledger).unmatchedBank).Perm bank ∧
    ((reconcileTransactions bank ledger).«matches».map (fun m => m.ledgerParams) ++
      (reconcileTransactions bank ledger).unmatchedLedger).Perm ledger := by
  refine ⟨?_, ?_, reconcile_perm_bank bank ledger, reconcile_perm_ledger bank ledger⟩
  · rw [reconcile_unmatchedBank_eq]
    exact ((pass3_bank_sublist bank ledger).trans
      (pass2_bank_sublist bank ledger)).trans (pass1_bank_sublist bank ledger)
  · rw [reconcile_unmatchedLedger_eq]
    exact ((pass3_ledger_sublist bank ledger).trans
      (pass2_ledger_sublist bank ledger)).trans (pass1_ledger_sublist bank ledger)

/-- C9: reconciling two empty sequences yields a report with empty matches and
unmatched lists and an all-zero summary; more generally the function is total
on structurally valid input — it always returns a report (its error branch is
unreachable). -/
theorem reconcile_empty_and_total :
    reconcileTransactions [] [] =
      (⟨[], [], [], ⟨0, 0, 0, 0, 0⟩⟩ : ReconciliationReport) ∧
    ∀ bank ledger : List Transaction,
      ∃ r : ReconciliationReport, reconcileTransactions bank ledger = r :=
  ⟨rfl, fun bank ledger => ⟨reconcileTransactions bank ledger, rfl⟩⟩

/-- C10: every transaction appearing in the returned report — as either side
of a match or in an unmatched list — is one of the input records (the pure
function operates on copies of the input lists and never rewrites a record).
-/
theorem report_transactions_from_inputs (bank ledger : List Transaction) :
    (∀ m ∈ (reconcileTransactions bank ledger).«matches»,
      m.bankParams ∈ bank ∧ m.ledgerParams ∈ ledger) ∧
    (∀ t ∈ (reconcileTransactions bank ledger).unmatchedBank, t ∈ bank) ∧
    (∀ t ∈ (reconcileTransactions bank ledger).unmatchedLedger, t ∈ ledger) := by
  refine ⟨?_, ?_, ?_⟩
  · intro m hm
    rw [reconcile_matches_eq] at hm
    rcases List.mem_append.mp hm with hm12 | hm3
    · rcases List.mem_append.mp hm12 with hm1 | hm2
      · exact runPass_mem exactPred 1 exactNote bank ledger m hm1
      · obtain ⟨hb, hl⟩ := runPass_mem fuzzyPred (9/10) fuzzyNote
          (pass1 bank ledger).2.1 (pass1 bank ledger).2.2 m hm2
        exact ⟨(pass1_bank_sublist bank ledger).subset hb,
          (pass1_ledger_sublist bank ledger).subset hl⟩
    · obtain ⟨hb, hl⟩ := runPass_mem descPred (7/10) descNote
        (pass2 bank ledger).2.1 (pass2 bank ledger).2.2 m hm3
      exact ⟨(pass1_bank_sublist bank ledger).subset
          ((pass2_bank_sublist bank ledger).subset hb),
        (pass1_ledger_sublist bank ledger).subset
          ((pass2_ledger_sublist bank ledger).subset hl)⟩
  · intro t ht
    rw [reconcile_unmatchedBank_eq] at ht
    exact (pass1_bank_sublist bank ledger).subset
      ((pass2_bank_sublist bank ledger).subset
        ((pass3_bank_sublist bank ledger).subset ht))
  · intro t ht
    rw [reconcile_unmatchedLedger_eq] at ht
    exact (pass1_ledger_sublist bank ledger).subset
      ((pass2_ledger_sublist bank ledger).subset
        ((pass3_ledger_sublist bank ledger).subset ht))

/-- C10 witness: the two sides of the concrete match on `[wBank]`, `[wLedger]`
are the input records themselves. -/
theorem report_transactions_from_inputs_witness :
    wMatch.bankParams ∈ [wBank] ∧ wMatch.ledgerParams ∈ [wLedger] :=
  (report_transactions_from_inputs [wBank] [wLedger]).1 wMatch (by decide)

end BankRec
